import Mathlib

/-!
Verification development for the BudgetMate ledger core.

Part 1 embeds the interactive transaction mutation path
(`src/api/src/controllers/transaction.controller.ts`: `createTransaction`,
`updateTransaction`, `deleteTransaction`) together with the Joi validation
schemas (`src/api/src/validators/transaction.validator.ts`).

Part 2 embeds the CSV import pipeline
(`src/unnamed/part_002`: `generateIdempotencyKey`, `uploadCSV`,
`configureMapping`, `processImport`, `processImportJob`).

Monetary amounts are modelled as rationals.  A JavaScript number that can be
`NaN` is modelled as `Option ℚ` with `none` standing for `NaN` (the spec
demands fixed-point decimals, and the only NaN source in the embedded code is
`Number(undefined)` / `parseFloat` of an unparseable string, both of which are
modelled explicitly).
-/

/-- A JavaScript number: `none` models `NaN`. -/
abbrev JSNum := Option ℚ

/-- JavaScript addition on numbers: adding `NaN` to anything yields `NaN`. -/
def jsAdd (a b : JSNum) : JSNum :=
  match a, b with
  | some x, some y => some (x + y)
  | _, _ => none

/-- An account row (`accounts` table): id, owner, stored balance.
Only the columns the embedded controllers read or write are modelled. -/
structure Account where
  id : Nat
  userId : Nat
  balance : JSNum
  deriving DecidableEq

/-- A transaction row (`transactions` table): id, owner, optional account
reference, amount and direction string.  The inert pass-through columns
(description, dates, mode, reference, notes, category) play no role in any
claim and are omitted. -/
structure Txn where
  id : Nat
  userId : Nat
  accountId : Option Nat
  amount : ℚ
  type : String
  deriving DecidableEq

/-- The ledger store: the two tables the transaction controller touches. -/
structure Ledger where
  accounts : List Account
  transactions : List Txn
  deriving DecidableEq

/-- The signed delta a stored transaction contributes to its account:
`type === 'income' ? amount : -amount` (controller lines 174-176, 283-285;
any direction other than `income` is treated as an expense). -/
def signedAmount (t : Txn) : ℚ :=
  if t.type = "income" then t.amount else -t.amount

/-- The signed delta computed from raw request fields. -/
def signedOf (ty : String) (m : ℚ) : ℚ :=
  if ty = "income" then m else -m

/-- `tx.accounts.update({ where: { id }, data: { balance: { increment: d } } })`:
`none` when no account row has the id (Prisma throws `RecordNotFound`, which
aborts the enclosing interactive transaction), otherwise the account list with
the matching balance incremented. -/
def incrementBalance (accs : List Account) (aid : Nat) (d : JSNum) :
    Option (List Account) :=
  if accs.any (fun a => a.id == aid) then
    some (accs.map (fun a =>
      if a.id = aid then { a with balance := jsAdd a.balance d } else a))
  else
    none

/-- The balance of the account with the given id, if one exists. -/
def balanceOf (l : Ledger) (aid : Nat) : Option JSNum :=
  (l.accounts.find? (fun a => a.id == aid)).map (fun a => a.balance)

/-- The body of a create request, already past `createTransactionSchema`
(which allows `account_id` to be absent or null, both modelled as `none`). -/
structure CreateReq where
  accountId : Option Nat
  amount : ℚ
  type : String
  deriving DecidableEq

/-- `createTransactionSchema` of `transaction.validator.ts`: amount positive,
type one of income or expense. -/
def validCreate (r : CreateReq) : Bool :=
  decide (0 < r.amount) && (r.type == "income" || r.type == "expense")

/-- The body of an update request, past `updateTransactionSchema` (every
field optional).  `accountId = none` models an absent `account_id` field,
`accountId = some none` models an explicit `account_id: null`, and
`accountId = some (some a)` a concrete account id. -/
structure UpdateReq where
  accountId : Option (Option Nat)
  amount : Option ℚ
  type : Option String
  deriving DecidableEq

/-- `updateTransactionSchema`: each field optional, amount positive and type
in the enum when present. -/
def validUpdate (r : UpdateReq) : Bool :=
  (match r.amount with
   | some m => decide (0 < m)
   | none => true) &&
  (match r.type with
   | some ty => ty == "income" || ty == "expense"
   | none => true)

/-- `createTransaction` (controller lines 130-206).  Inside one atomic unit it
inserts the transaction row and then, if `account_id` was supplied, looks the
account up by id only (`tx.accounts.findUnique({ where: { id: account_id } })`,
no owner filter) and increments its balance by the signed amount.  The
`transactions.account_id` column carries a real foreign key to `accounts`
(`onDelete: SetNull`, see the comment in `account.controller.ts` line 206 and
the schema notes in PROJECT_SUMMARY), so an insert referencing a nonexistent
account id violates the constraint: the insert throws and the `$transaction`
rolls back, committing nothing (`none`).  When the id exists the subsequent
`findUnique` always finds it, so the `if (account)` guard is taken and the
balance is incremented — with no ownership check anywhere. -/
def createTransaction (l : Ledger) (userId newId : Nat) (r : CreateReq) :
    Option Ledger :=
  let t : Txn :=
    { id := newId, userId := userId, accountId := r.accountId,
      amount := r.amount, type := r.type }
  match r.accountId with
  | none => some { l with transactions := l.transactions ++ [t] }
  | some aid =>
    match incrementBalance l.accounts aid (some (signedOf r.type r.amount)) with
    | some accs => some { accounts := accs, transactions := l.transactions ++ [t] }
    | none => none

/-- `updateTransaction` (controller lines 211-312).  Fetches the existing row
by id and owner; then, in one atomic unit: reverts the old delta on the old
account using the stored direction and amount (lines 246-259), persists the
new field values with Prisma semantics (an absent field leaves the column
unchanged, lines 262-279), and, only when the request body carries a truthy
`account_id`, increments that account by
`type === 'income' ? Number(amount) : -Number(amount)` computed from the raw
body fields (lines 282-295).  An absent body amount makes that delta
`Number(undefined) = NaN`; the balance column is a Decimal, which has no NaN,
so the ORM cannot bind the increment — the update throws and the atomic unit
rolls back, committing nothing.  `none` models a request that commits nothing
(404, a NaN delta, or any other Prisma error rolling the unit back). -/
def updateTransaction (l : Ledger) (userId txId : Nat) (r : UpdateReq) :
    Option Ledger :=
  match l.transactions.find? (fun t => t.id == txId && t.userId == userId) with
  | none => none
  | some old =>
    let step1 : Option (List Account) :=
      match old.accountId with
      | none => some l.accounts
      | some aid => incrementBalance l.accounts aid (some (-(signedAmount old)))
    match step1 with
    | none => none
    | some accs1 =>
      let newTx : Txn :=
        { old with
          accountId := r.accountId.getD old.accountId,
          amount := r.amount.getD old.amount,
          type := r.type.getD old.type }
      let txs := l.transactions.map (fun t => if t.id = txId then newTx else t)
      match r.accountId with
      | some (some aid) =>
        let delta : JSNum :=
          match r.amount with
          | some m => some (if r.type = some "income" then m else -m)
          | none => none
        match delta with
        | none => none
        | some d =>
          match incrementBalance accs1 aid (some d) with
          | none => none
          | some accs2 => some { accounts := accs2, transactions := txs }
      | _ => some { accounts := accs1, transactions := txs }

/-- `deleteTransaction` (controller lines 317-375): fetch by id and owner,
then atomically revert the delta on the referenced account (if any) and
remove the row. -/
def deleteTransaction (l : Ledger) (userId txId : Nat) : Option Ledger :=
  match l.transactions.find? (fun t => t.id == txId && t.userId == userId) with
  | none => none
  | some t =>
    let txs := l.transactions.filter (fun u => u.id != txId)
    match t.accountId with
    | none => some { l with transactions := txs }
    | some aid =>
      match incrementBalance l.accounts aid (some (-(signedAmount t))) with
      | none => none
      | some accs => some { accounts := accs, transactions := txs }

/-- One committed-or-rejected interactive mutation request. -/
inductive LedgerOp where
  | create (userId newId : Nat) (r : CreateReq)
  | update (userId txId : Nat) (r : UpdateReq)
  | delete (userId txId : Nat)
  deriving DecidableEq

/-- Apply one request; a request that fails (404 or rolled-back unit) leaves
the committed state unchanged. -/
def applyOp (l : Ledger) : LedgerOp → Ledger
  | .create u i r => (createTransaction l u i r).getD l
  | .update u t r => (updateTransaction l u t r).getD l
  | .delete u t => (deleteTransaction l u t).getD l

/-- Apply a sequence of requests in order. -/
def applyOps (l : Ledger) (ops : List LedgerOp) : Ledger :=
  ops.foldl applyOp l

/-- Sum of the signed amounts of the stored transactions referencing the
given account. -/
def sumFor (ts : List Txn) (aid : Nat) : ℚ :=
  ((ts.filter (fun t => t.accountId == some aid)).map signedAmount).sum

/-- The central invariant of the spec: every stored account balance equals
the signed sum of the existing transactions referencing it. -/
def BalanceInv (l : Ledger) : Prop :=
  ∀ a ∈ l.accounts, a.balance = some (sumFor l.transactions a.id)

instance (l : Ledger) : Decidable (BalanceInv l) := by
  unfold BalanceInv; infer_instance

/-!
Part 2: the CSV import pipeline of `src/unnamed/part_002`.
-/

/-- A raw CSV row as the `csv-parser` utility delivers it: a string-keyed
object, modelled as an association list from column name to cell text. -/

abbrev RawRow := List (String × String)

/-- `row[col]` on a raw row: `none` models JavaScript `undefined`. -/
def rowGet (row : RawRow) (col : String) : Option String :=
  (row.find? (fun p => p.1 == col)).map (fun p => p.2)

/-- `row[mapping.x]` where the mapping field itself is optional:
`row[undefined]` is `undefined`. -/
def rowGetOpt (row : RawRow) (col : Option String) : Option String :=
  col.bind (rowGet row)

/-- The column mapping (`columnMappingSchema`, lines 29-37): `date`,
`amount`, `description` mandatory, the rest optional. -/
structure Mapping where
  date : String
  amount : String
  description : String
  type : Option String
  category : Option String
  account : Option String
  reference : Option String
  deriving DecidableEq

/-- Modelled from the spec: `crypto.createHash('md5')` is Node library code,
not part of this repository.  The spec requires only a stable fingerprint,
a deterministic content hash of its input text, so the model keeps the input
text itself; no theorem below relies on the hash being injective (real md5
is not), only on its determinism. -/
def md5Hex (s : String) : String := s

/-- The four key fields of `generateIdempotencyKey` (lines 41-46): the raw
date, amount and description cells and `row[mapping.reference] || ''`.
`Array.prototype.join` renders an `undefined` entry as the empty string, and
`|| ''` maps both `undefined` and `''` to `''`, so every field is
`getD ""`. -/
def keyFields (row : RawRow) (m : Mapping) : List String :=
  [(rowGet row m.date).getD "",
   (rowGet row m.amount).getD "",
   (rowGet row m.description).getD "",
   (rowGetOpt row m.reference).getD ""]

/-- `generateIdempotencyKey` (lines 40-48): md5 of the key fields joined
with a pipe character. -/
def generateIdempotencyKey (row : RawRow) (m : Mapping) : String :=
  md5Hex (String.intercalate "|" (keyFields row m))

/-- Value of a digit string (most significant first). -/
def digitsVal (l : List Char) : Nat :=
  l.foldl (fun n c => 10 * n + (c.toNat - 48)) 0

/-- Modelled from the spec: `parseFloat` is a JavaScript builtin, not
repository code.  The spec says "strip all characters except digits, sign,
and decimal point, then parse as a fixed-point decimal; a row whose
resulting amount is not-a-number is invalid".  The model implements
`parseFloat` on exactly the post-strip alphabet (digits, `.` and `-`): an
optional leading minus sign, then the longest `digits [. digits]` prefix;
`none` models `NaN` (no digit consumed), and trailing garbage is ignored,
as `parseFloat` does. -/
def jsParseUnsigned (l : List Char) : Option ℚ :=
  let ip := l.takeWhile Char.isDigit
  let fp : List Char :=
    match l.dropWhile Char.isDigit with
    | '.' :: rest => rest.takeWhile Char.isDigit
    | _ => []
  if ip.isEmpty && fp.isEmpty then none
  else some ((digitsVal ip : ℚ) + (digitsVal fp : ℚ) / ((10 : ℚ) ^ fp.length))

/-- An optional leading minus sign, then the longest unsigned prefix. -/
def jsParseFloat (s : String) : Option ℚ :=
  match s.toList with
  | '-' :: rest => (jsParseUnsigned rest).map (fun v => -v)
  | l => jsParseUnsigned l

/-- `replace(/[^\d.-]/g, '')`: keep only digits, the decimal point and the
minus sign. -/
def stripAmountChars (s : String) : String :=
  String.mk (s.toList.filter (fun c => c.isDigit || c == '.' || c == '-'))

/-- The string handed to `parseFloat` on line 325:
`row[mapping.amount]?.replace(/[^\d.-]/g, '') || '0'` — an undefined cell or
an empty post-strip string falls back to the string zero. -/
def amountInput (row : RawRow) (m : Mapping) : String :=
  match (rowGet row m.amount).map stripAmountChars with
  | some s => if s.isEmpty then "0" else s
  | none => "0"

/-- `const amount = parseFloat(...)` of line 325; `none` is `NaN`. -/
def parsedAmount (row : RawRow) (m : Mapping) : Option ℚ :=
  jsParseFloat (amountInput row m)

/-- Modelled from the spec: `new Date(string)` is a JavaScript builtin, not
repository code; the spec says "parse the mapped date column as a calendar
date/time; a row whose date fails to parse is invalid".  The model accepts
the ISO `YYYY-MM-DD` shape (the shape used by every concrete run below) and
rejects an undefined cell; nothing below depends on which further strings a
real Date constructor would accept. -/
def jsDateValid (s : Option String) : Bool :=
  match s with
  | none => false
  | some s =>
    match s.toList with
    | [y1, y2, y3, y4, '-', mo1, mo2, '-', d1, d2] =>
      y1.isDigit && y2.isDigit && y3.isDigit && y4.isDigit &&
      mo1.isDigit && mo2.isDigit && d1.isDigit && d2.isDigit
    | _ => false

/-- The validity check of line 329:
`isNaN(amount) || !description || isNaN(txDate.getTime())`. -/
def rowInvalid (row : RawRow) (m : Mapping) : Bool :=
  (parsedAmount row m).isNone ||
  (match rowGet row m.description with
   | some s => s.isEmpty
   | none => true) ||
  !(jsDateValid (rowGet row m.date))

/-- `row[mapping.type] || 'expense'` (line 349): an undefined or empty cell
defaults to expense; any other raw string is stored as the type verbatim. -/
def rowType (row : RawRow) (m : Mapping) : String :=
  match rowGetOpt row m.type with
  | some s => if s.isEmpty then "expense" else s
  | none => "expense"

/-- An `import_rows` record.  Note the schema carries no owner column: the
duplicate lookup in the processor filters on the key alone. -/
structure ImportRow where
  importJobId : Nat
  rowNumber : Nat
  idempotencyKey : String
  status : String
  errorMessage : Option String
  transactionId : Option Nat
  deriving DecidableEq

/-- An `import_jobs` record (the columns the controller reads or writes). -/
structure ImportJob where
  id : Nat
  userId : Nat
  status : String
  totalRows : Nat
  previewData : List RawRow
  mappingData : Option Mapping
  processedRows : Nat
  successfulRows : Nat
  failedRows : Nat
  deriving DecidableEq

/-- The completion notification (lines 399-408): its payload carries the two
loop counters. -/
structure Notification where
  userId : Nat
  successCount : Nat
  failureCount : Nat
  deriving DecidableEq

/-- `uploadCSV` (lines 113-155): rejects an empty parse, otherwise creates a
job in status pending whose `preview_data` keeps only the first five rows
(`csvData.slice(0, 5)`, line 136) while `total_rows` records the full
length. -/
def uploadCSV (jobs : List ImportJob) (userId newJobId : Nat)
    (csvData : List RawRow) : Except String (List ImportJob) :=
  if csvData.isEmpty then
    .error "CSV file is empty"
  else
    let job : ImportJob :=
      { id := newJobId, userId := userId, status := "pending",
        totalRows := csvData.length, previewData := csvData.take 5,
        mappingData := none, processedRows := 0, successfulRows := 0,
        failedRows := 0 }
    .ok (jobs ++ [job])

/-- `configureMapping` (lines 158-187): requires only that a job with this id
belongs to the caller — no check of the current status — then stores the
mapping and sets the status to configured. -/
def configureMapping (jobs : List ImportJob) (jobId userId : Nat)
    (m : Mapping) : Except String (List ImportJob) :=
  match jobs.find? (fun j => j.id == jobId && j.userId == userId) with
  | none => .error "Import job not found"
  | some _ =>
    .ok (jobs.map (fun j =>
      if j.id = jobId then { j with mappingData := some m, status := "configured" }
      else j))

/-- The synchronous part of `processImport` (lines 253-280): requires only
ownership and a stored mapping — again no status check — sets the status to
processing and fires the background processor. -/
def processImport (jobs : List ImportJob) (jobId userId : Nat) :
    Except String (List ImportJob) :=
  match jobs.find? (fun j => j.id == jobId && j.userId == userId) with
  | none => .error "Import job or mapping not found"
  | some job =>
    match job.mappingData with
    | none => .error "Import job or mapping not found"
    | some _ =>
      .ok (jobs.map (fun j =>
        if j.id = jobId then { j with status := "processing" } else j))

/-- The mutable state the background loop threads: the global `import_rows`
and `transactions` tables, a fresh-id counter for created transactions, and
the two local counters of lines 296-297. -/
structure PState where
  importRows : List ImportRow
  transactions : List Txn
  nextTxId : Nat
  successCount : Nat
  failureCount : Nat
  deriving DecidableEq

/-- One iteration of the loop of lines 299-384 on the row with 0-based index
`idx`.  The duplicate lookup (`prisma.import_rows.findFirst({ where: {
idempotency_key } })`, lines 305-307) searches the whole table — every job of
every owner, rows recorded earlier in this same run included.  A duplicate or
invalid row records its outcome and bumps `failureCount`; otherwise a
transaction is inserted directly through the ORM (lines 345-355) with the
parsed amount, the raw type cell (or the expense default) and no account
reference, and the outcome `processed` records its id. -/
def processRow (jobId userId : Nat) (m : Mapping) (st : PState) (idx : Nat)
    (row : RawRow) : PState :=
  let key := generateIdempotencyKey row m
  if st.importRows.any (fun r => r.idempotencyKey == key) then
    { st with
      importRows := st.importRows ++
        [{ importJobId := jobId, rowNumber := idx + 1, idempotencyKey := key,
           status := "duplicate",
           errorMessage := some "Duplicate transaction detected",
           transactionId := none }],
      failureCount := st.failureCount + 1 }
  else if rowInvalid row m then
    { st with
      importRows := st.importRows ++
        [{ importJobId := jobId, rowNumber := idx + 1, idempotencyKey := key,
           status := "failed", errorMessage := some "Invalid data format",
           transactionId := none }],
      failureCount := st.failureCount + 1 }
  else
    { importRows := st.importRows ++
        [{ importJobId := jobId, rowNumber := idx + 1, idempotencyKey := key,
           status := "processed", errorMessage := none,
           transactionId := some st.nextTxId }],
      transactions := st.transactions ++
        [{ id := st.nextTxId, userId := userId, accountId := none,
           amount := (parsedAmount row m).getD 0, type := rowType row m }],
      nextTxId := st.nextTxId + 1,
      successCount := st.successCount + 1,
      failureCount := st.failureCount }

/-- The loop of lines 299-384, sequential and in ascending row order. -/
def processRowsAux (jobId userId : Nat) (m : Mapping) :
    PState → Nat → List RawRow → PState
  | st, _, [] => st
  | st, i, row :: rest =>
    processRowsAux jobId userId m (processRow jobId userId m st i row) (i + 1) rest

/-- The whole store the background processor touches. -/
structure ImportState where
  jobs : List ImportJob
  importRows : List ImportRow
  transactions : List Txn
  notifications : List Notification
  nextTxId : Nat
  deriving DecidableEq

/-- `processImportJob` (lines 283-419), the background processor.  It loads
the job, then iterates over `importJob.preview_data` — the stored five-row
preview, not the full uploaded file (line 293) — and finally marks the job
completed with `processed_rows := csvData.length` and the two counters, and
records the completion notification.  A missing job is a silent return; a
missing mapping makes the untyped property accesses throw, which the outer
catch (lines 410-418) turns into status failed. -/
def processImportJob (st : ImportState) (jobId : Nat) : ImportState :=
  match st.jobs.find? (fun j => j.id == jobId) with
  | none => st
  | some job =>
    match job.mappingData with
    | none =>
      { st with jobs := st.jobs.map (fun j =>
          if j.id = jobId then { j with status := "failed" } else j) }
    | some m =>
      let rows := job.previewData
      let p := processRowsAux jobId job.userId m
        { importRows := st.importRows, transactions := st.transactions,
          nextTxId := st.nextTxId, successCount := 0, failureCount := 0 } 0 rows
      { jobs := st.jobs.map (fun j =>
          if j.id = jobId then
            { j with status := "completed", processedRows := rows.length,
                     successfulRows := p.successCount,
                     failedRows := p.failureCount }
          else j),
        importRows := p.importRows,
        transactions := p.transactions,
        notifications := st.notifications ++
          [{ userId := job.userId, successCount := p.successCount,
             failureCount := p.failureCount }],
        nextTxId := p.nextTxId }

/-- A column mapping binding date, amount, description to columns `d`,
`a`, `s`. -/
def mapDAS : Mapping :=
  { date := "d", amount := "a", description := "s", type := none,
    category := none, account := none, reference := none }

/-- The same mapping with a type column `t`. -/
def mapDAST : Mapping :=
  { date := "d", amount := "a", description := "s", type := some "t",
    category := none, account := none, reference := none }

/-- A well-formed CSV row. -/
def sampleRow : RawRow := [("d", "2024-01-01"), ("a", "5"), ("s", "x")]

/-- A row whose amount cell strips to `-5` and whose type cell holds the
string transfer. -/
def rowNeg5 : RawRow :=
  [("d", "2024-01-02"), ("a", "-5"), ("s", "stuff"), ("t", "transfer")]

/-- A row whose amount cell strips to the empty string. -/
def rowAbc : RawRow := [("d", "2024-01-01"), ("a", "abc"), ("s", "x")]

/-- A row whose amount cell strips to a lone minus sign, which parseFloat
rejects as NaN. -/
def rowDash : RawRow := [("d", "2024-01-01"), ("a", "-"), ("s", "x")]

/-- Six valid rows with pairwise distinct idempotency keys. -/
def rows6 : List RawRow :=
  [[("d", "2024-01-01"), ("a", "1"), ("s", "x")],
   [("d", "2024-01-01"), ("a", "2"), ("s", "x")],
   [("d", "2024-01-01"), ("a", "3"), ("s", "x")],
   [("d", "2024-01-01"), ("a", "4"), ("s", "x")],
   [("d", "2024-01-01"), ("a", "5"), ("s", "x")],
   [("d", "2024-01-01"), ("a", "6"), ("s", "x")]]

/-- A job of owner 1 whose preview holds the same valid row twice. -/
def sampleJobTwice : ImportJob :=
  { id := 1, userId := 1, status := "processing", totalRows := 2,
    previewData := [sampleRow, sampleRow], mappingData := some mapDAS,
    processedRows := 0, successfulRows := 0, failedRows := 0 }

/-- The store holding only `sampleJobTwice`. -/
def sampleStateTwice : ImportState :=
  { jobs := [sampleJobTwice], importRows := [], transactions := [],
    notifications := [], nextTxId := 50 }

/-!
Supporting development: the balance invariant is maintained by the
controller as long as every update request carries `account_id`, `amount`
and `type` (or sets `account_id` to null).  This isolates the C1/C2 code
defect to the partial-update path: the mechanism is otherwise sound.
-/

/-- Well-formed store: account ids and transaction ids are unique, as the
database enforces. -/

def WFLedger (l : Ledger) : Prop :=
  (l.accounts.map (fun a => a.id)).Nodup ∧
  (l.transactions.map (fun t => t.id)).Nodup

/-- An update body that never takes the partial-update escape hatches: it
names the new account (or null), and when it names one it also carries
amount and type. -/
def fullUpdate (r : UpdateReq) : Bool :=
  match r.accountId with
  | none => false
  | some none => true
  | some (some _) => r.amount.isSome && r.type.isSome

/-- The per-operation side conditions of the preservation theorem. -/
def SafeOp (l : Ledger) : LedgerOp → Prop
  | .create _ newId r =>
    validCreate r = true ∧ newId ∉ l.transactions.map (fun t => t.id)
  | .update _ _ r => validUpdate r = true ∧ fullUpdate r = true
  | .delete _ _ => True

/-- A request trace whose every operation is safe in the state it hits. -/
def SafeTrace : Ledger → List LedgerOp → Prop
  | _, [] => True
  | l, op :: rest => SafeOp l op ∧ SafeTrace (applyOp l op) rest

/-- C1.  The balance invariant does not survive every valid mutation
sequence: create an income of 100 on account 1 (balance becomes 100), then
send a PUT update whose body carries none of account_id, amount, type —
accepted by `updateTransactionSchema`, where every field is optional.  The
controller reverts the old delta (balance back to 0) but, since
`req.body.account_id` is undefined, never applies a new one, while Prisma
keeps the transaction attached to account 1.  The committed state has
balance 0 against a signed sum of 100. -/
theorem C1_invariant_fails_on_partial_update :
    validCreate { accountId := some 1, amount := 100, type := "income" } = true ∧
    validUpdate { accountId := none, amount := none, type := none } = true ∧
    applyOps { accounts := [⟨1, 1, some 0⟩], transactions := [] }
        [.create 1 10 { accountId := some 1, amount := 100, type := "income" },
         .update 1 10 { accountId := none, amount := none, type := none }] =
      { accounts := [⟨1, 1, some 0⟩],
        transactions := [⟨10, 1, some 1, 100, "income"⟩] } ∧
    ¬ BalanceInv
        { accounts := [⟨1, 1, some 0⟩],
          transactions := [⟨10, 1, some 1, 100, "income"⟩] } := by
  refine ⟨by decide, by decide, ?_, ?_⟩
  · norm_num [applyOps, applyOp, createTransaction, updateTransaction,
      incrementBalance, jsAdd, signedOf, signedAmount]
  · norm_num [BalanceInv, sumFor, signedAmount]

theorem incrementBalance_of_absent (accs : List Account) (aid : Nat) (d : JSNum)
    (h : accs.any (fun a => a.id == aid) = false) :
    incrementBalance accs aid d = none := by
  simp [incrementBalance, h]

theorem incrementBalance_map (accs accs' : List Account) (aid : Nat) (d : JSNum)
    (h : incrementBalance accs aid d = some accs') :
    accs' = accs.map (fun a =>
      if a.id = aid then { a with balance := jsAdd a.balance d } else a) := by
  unfold incrementBalance at h
  by_cases hc : accs.any (fun a => a.id == aid) = true
  · simp [hc] at h
    exact h.symm
  · simp [hc] at h

theorem find?_map_of_id (f : Account → Account) (hf : ∀ a, (f a).id = a.id)
    (accs : List Account) (aid : Nat) :
    (accs.map f).find? (fun a => a.id == aid)
      = (accs.find? (fun a => a.id == aid)).map f := by
  induction accs with
  | nil => rfl
  | cons a rest ih =>
    by_cases h : a.id = aid
    · have hb : (a.id == aid) = true := by simp [h]
      simp [List.find?, hf, hb]
    · have hb : (a.id == aid) = false := by simp [h]
      simp [List.find?, hf, hb, ih]

theorem incrementBalance_find (accs accs' : List Account) (aid : Nat) (d : JSNum)
    (h : incrementBalance accs aid d = some accs') :
    accs'.find? (fun a => a.id == aid)
      = (accs.find? (fun a => a.id == aid)).map
          (fun a => { a with balance := jsAdd a.balance d }) := by
  rw [incrementBalance_map accs accs' aid d h]
  rw [find?_map_of_id]
  · cases hf : accs.find? (fun a => a.id == aid) with
    | none => rfl
    | some a0 =>
      have hp := List.find?_some hf
      simp only [beq_iff_eq] at hp
      simp [hp]
  · intro a
    by_cases h : a.id = aid <;> simp [h]

theorem incrementBalance_isSome (accs : List Account) (aid : Nat) (d : JSNum)
    (h : accs.any (fun a => a.id == aid) = true) :
    incrementBalance accs aid d
      = some (accs.map (fun a =>
          if a.id = aid then { a with balance := jsAdd a.balance d } else a)) := by
  simp [incrementBalance, h]

/-- C3 (amended).  `createTransaction` performs no ownership check on the
referenced account: if the id exists, the request succeeds and the balance
update hits that account whatever its owner (the caller id appears nowhere
in the lookup) — no AccountNotFound is raised for a foreign account.  If the
id does not exist, the insert violates the transactions-accounts foreign key
and the whole atomic unit rolls back: no row is inserted and no balance
changes, but the failure is a generic storage error surfaced as a 500, not a
typed AccountNotFound. -/
theorem C3_create_no_ownership_check (l : Ledger) (userId newId aid : Nat)
    (m b : ℚ) (ty : String)
    (hval : validCreate { accountId := some aid, amount := m, type := ty } = true) :
    (l.accounts.any (fun a => a.id == aid) = false →
      createTransaction l userId newId { accountId := some aid, amount := m, type := ty }
        = none) ∧
    (balanceOf l aid = some (some b) →
      ∃ l' : Ledger,
        createTransaction l userId newId { accountId := some aid, amount := m, type := ty }
          = some l' ∧
        balanceOf l' aid = some (some (b + signedOf ty m)) ∧
        l'.transactions = l.transactions ++ [⟨newId, userId, some aid, m, ty⟩]) := by
  constructor
  · intro habs
    simp [createTransaction, incrementBalance_of_absent _ _ _ habs]
  · intro hbal
    have hex : l.accounts.any (fun a => a.id == aid) = true := by
      unfold balanceOf at hbal
      cases hf : l.accounts.find? (fun a => a.id == aid) with
      | none => simp [hf] at hbal
      | some a0 =>
        have hmem := List.mem_of_find?_eq_some hf
        have hp := List.find?_some hf
        exact List.any_eq_true.mpr ⟨a0, hmem, hp⟩
    have hsome := incrementBalance_isSome l.accounts aid (some (signedOf ty m)) hex
    have hfind := incrementBalance_find l.accounts _ aid (some (signedOf ty m)) hsome
    refine ⟨{ accounts := l.accounts.map (fun a =>
                if a.id = aid then
                  { a with balance := jsAdd a.balance (some (signedOf ty m)) }
                else a),
              transactions := l.transactions ++ [⟨newId, userId, some aid, m, ty⟩] },
            ?_, ?_, rfl⟩
    · simp [createTransaction, hsome]
    · unfold balanceOf at hbal ⊢
      cases hf : l.accounts.find? (fun a => a.id == aid) with
      | none => simp [hf] at hbal
      | some a0 =>
        rw [hf] at hbal
        simp only [Option.map_some'] at hbal
        dsimp only
        rw [hfind, hf, Option.map_some', Option.map_some']
        simp only [Option.some.injEq] at hbal ⊢
        rw [hbal]
        rfl

/-- Witness for C3: a caller (user 7) references account 1, which belongs to
user 2; the create succeeds, inserts the row and moves the foreign balance
from 50 to 60. -/
theorem C3_create_no_ownership_check_witness :
    validCreate { accountId := some 1, amount := 10, type := "income" } = true ∧
    (balanceOf { accounts := [⟨1, 2, some 50⟩], transactions := [] } 1 = some (some 50) →
      ∃ l' : Ledger,
        createTransaction { accounts := [⟨1, 2, some 50⟩], transactions := [] } 7 20
            { accountId := some 1, amount := 10, type := "income" }
          = some l' ∧
        balanceOf l' 1 = some (some (50 + signedOf "income" 10)) ∧
        l'.transactions = [] ++ [⟨20, 7, some 1, 10, "income"⟩]) :=
  ⟨by decide,
   (C3_create_no_ownership_check { accounts := [⟨1, 2, some 50⟩], transactions := [] }
      7 20 1 10 50 "income" (by decide)).2⟩

/-- C3 counterexample: the claim says a create referencing an account that
does not belong to the caller fails with AccountNotFound, inserting nothing
and changing no balance.  In the code, user 1 creating against account 1
(owned by user 2) succeeds, inserts the transaction row and raises the other
owners balance from 50 to 60. -/
theorem C3_cex_foreign_account_mutated :
    validCreate { accountId := some 1, amount := 10, type := "income" } = true ∧
    createTransaction { accounts := [⟨1, 2, some 50⟩], transactions := [] } 1 20
        { accountId := some 1, amount := 10, type := "income" }
      = some { accounts := [⟨1, 2, some 60⟩],
               transactions := [⟨20, 1, some 1, 10, "income"⟩] } := by
  refine ⟨by decide, ?_⟩
  norm_num [createTransaction, incrementBalance, jsAdd, signedOf]

/-- C2.  The update path computes the applied delta from the RAW request
body, not from the persisted row: a schema-valid body carrying account_id 2
and amount 100 but no type moves the row to account 2 keeping its stored
type income and amount 100 (Prisma leaves an absent column unchanged), yet
the delta applied to account 2 is `type === 'income' ? ... : -Number(amount)`
with `type` undefined — the expense-signed -100.  Account 2 commits at
7 - 100 = -93 although the new direction and amount of the persisted row
demand +100 (its signed delta, last conjunct): the delta is applied with the
wrong direction, not moved exactly once.  (A body that also omits amount
commits nothing at all: `Number(undefined) = NaN` cannot bind to the Decimal
increment, so the unit rolls back.) -/
theorem C2_update_wrong_direction_delta :
    validUpdate { accountId := some (some 2), amount := some 100, type := none } = true ∧
    updateTransaction
        { accounts := [⟨1, 1, some 100⟩, ⟨2, 1, some 7⟩],
          transactions := [⟨10, 1, some 1, 100, "income"⟩] }
        1 10 { accountId := some (some 2), amount := some 100, type := none } =
      some { accounts := [⟨1, 1, some 0⟩, ⟨2, 1, some (-93)⟩],
             transactions := [⟨10, 1, some 2, 100, "income"⟩] } ∧
    signedAmount ⟨10, 1, some 2, 100, "income"⟩ = 100 := by
  refine ⟨by decide, ?_, by norm_num [signedAmount]⟩
  have hno : ¬ ((none : Option String) = some "income") :=
    fun hc => Option.noConfusion hc
  norm_num [updateTransaction, incrementBalance, jsAdd, signedAmount, if_neg hno]

/-- C4 counterexample: a job that is already in the terminal status
completed is happily reconfigured (back to configured) and re-submitted for
processing (to processing) — the claim says configureMapping must fail with
InvalidState unless the status is pending, and that a terminal job can never
transition again. -/
theorem C4_cex_terminal_job_reprocessed :
    configureMapping
        [⟨1, 1, "completed", 1, [], some ⟨"d", "a", "s", none, none, none, none⟩, 1, 1, 0⟩]
        1 1 ⟨"d", "a", "s", none, none, none, none⟩
      = .ok [⟨1, 1, "configured", 1, [],
             some ⟨"d", "a", "s", none, none, none, none⟩, 1, 1, 0⟩] ∧
    processImport
        [⟨1, 1, "completed", 1, [], some ⟨"d", "a", "s", none, none, none, none⟩, 1, 1, 0⟩]
        1 1
      = .ok [⟨1, 1, "processing", 1, [],
             some ⟨"d", "a", "s", none, none, none, none⟩, 1, 1, 0⟩] := by
  constructor <;> rfl

/-- C4 (amended).  The import job endpoints enforce no state machine at all:
`configureMapping` succeeds for every owned job whatever its current status —
terminal statuses included — storing the mapping and forcing the status to
configured, and `processImport` succeeds for every owned job that has a
stored mapping — again whatever its status — forcing it to processing and
re-running the background processor. -/
theorem C4_no_status_guards (jobs : List ImportJob) (jobId userId : Nat)
    (job : ImportJob) (m newM : Mapping)
    (hfind : jobs.find? (fun j => j.id == jobId && j.userId == userId) = some job) :
    configureMapping jobs jobId userId newM
      = .ok (jobs.map (fun j =>
          if j.id = jobId then { j with mappingData := some newM, status := "configured" }
          else j)) ∧
    (job.mappingData = some m →
      processImport jobs jobId userId
        = .ok (jobs.map (fun j =>
            if j.id = jobId then { j with status := "processing" } else j))) := by
  constructor
  · unfold configureMapping
    rw [hfind]
  · intro hm
    unfold processImport
    rw [hfind]
    simp [hm]

/-- Witness for C4: the completed job of the counterexample state is owned,
so both operations succeed on it. -/
theorem C4_no_status_guards_witness :
    configureMapping
        [⟨1, 1, "completed", 1, [], some ⟨"d", "a", "s", none, none, none, none⟩, 1, 1, 0⟩]
        1 1 ⟨"x", "y", "z", none, none, none, none⟩
      = .ok ([⟨1, 1, "completed", 1, [],
              some ⟨"d", "a", "s", none, none, none, none⟩, 1, 1, 0⟩].map (fun j =>
          if j.id = 1 then
            { j with mappingData := some ⟨"x", "y", "z", none, none, none, none⟩,
                     status := "configured" }
          else j)) ∧
    (some ⟨"d", "a", "s", none, none, none, none⟩
        = some (⟨"d", "a", "s", none, none, none, none⟩ : Mapping) →
      processImport
          [⟨1, 1, "completed", 1, [], some ⟨"d", "a", "s", none, none, none, none⟩, 1, 1, 0⟩]
          1 1
        = .ok ([⟨1, 1, "completed", 1, [],
                some ⟨"d", "a", "s", none, none, none, none⟩, 1, 1, 0⟩].map (fun j =>
            if j.id = 1 then { j with status := "processing" } else j))) :=
  C4_no_status_guards _ 1 1
    ⟨1, 1, "completed", 1, [], some ⟨"d", "a", "s", none, none, none, none⟩, 1, 1, 0⟩
    ⟨"d", "a", "s", none, none, none, none⟩ ⟨"x", "y", "z", none, none, none, none⟩
    (by rfl)

/-- C5 (amended).  The duplicate check of the processor consults the whole
`import_rows` table filtered by the idempotency key alone — Import Row
Outcomes previously recorded by any owner in any job, outcomes appended
earlier in the same run included — so a visited row is recorded duplicate
(creating no transaction) exactly when its key already appears somewhere in
that global table, with no owner scoping whatsoever. -/
theorem C5_dedup_is_global_not_owner_scoped (jobId userId : Nat) (m : Mapping)
    (st : PState) (idx : Nat) (row : RawRow) :
    ∃ o : ImportRow,
      (processRow jobId userId m st idx row).importRows = st.importRows ++ [o] ∧
      (o.status = "duplicate" ↔
        generateIdempotencyKey row m ∈ st.importRows.map (fun r => r.idempotencyKey)) ∧
      (o.status = "duplicate" →
        (processRow jobId userId m st idx row).transactions = st.transactions) := by
  by_cases hdup :
      st.importRows.any (fun r => r.idempotencyKey == generateIdempotencyKey row m) = true
  · refine ⟨{ importJobId := jobId, rowNumber := idx + 1,
              idempotencyKey := generateIdempotencyKey row m,
              status := "duplicate",
              errorMessage := some "Duplicate transaction detected",
              transactionId := none }, ?_, ?_, ?_⟩
    · simp [processRow, hdup]
    · constructor
      · intro _
        rcases List.any_eq_true.mp hdup with ⟨r, hr, hkey⟩
        simp only [beq_iff_eq] at hkey
        exact List.mem_map.mpr ⟨r, hr, hkey⟩
      · intro _
        rfl
    · intro _
      simp [processRow, hdup]
  · have habs : ¬ generateIdempotencyKey row m
        ∈ st.importRows.map (fun r => r.idempotencyKey) := by
      intro hmem
      rcases List.mem_map.mp hmem with ⟨r, hr, hkey⟩
      exact hdup (List.any_eq_true.mpr ⟨r, hr, by simp [hkey]⟩)
    by_cases hinv : rowInvalid row m = true
    · refine ⟨{ importJobId := jobId, rowNumber := idx + 1,
                idempotencyKey := generateIdempotencyKey row m,
                status := "failed",
                errorMessage := some "Invalid data format",
                transactionId := none }, ?_, ?_, ?_⟩
      · simp [processRow, hdup, hinv]
      · refine ⟨fun h => absurd (show ("failed" : String) = "duplicate" from h) (by decide),
          fun h => absurd h habs⟩
      · intro h
        exact absurd (show ("failed" : String) = "duplicate" from h) (by decide)
    · refine ⟨{ importJobId := jobId, rowNumber := idx + 1,
                idempotencyKey := generateIdempotencyKey row m,
                status := "processed", errorMessage := none,
                transactionId := some st.nextTxId }, ?_, ?_, ?_⟩
      · simp [processRow, hdup, hinv]
      · refine ⟨fun h => absurd (show ("processed" : String) = "duplicate" from h) (by decide),
          fun h => absurd h habs⟩
      · intro h
        exact absurd (show ("processed" : String) = "duplicate" from h) (by decide)

/-- C5 counterexample: owner 2 once imported a row with key `2024-01-01|5|x|`
(job 99).  Owner 1 later uploads a row with the same four raw fields under
job 1: the processor records it as duplicate and creates no transaction,
although no import of owner 1 ever recorded that key — refuting the claim
that a key recorded only in another owners imports does not mark the row
duplicate. -/
theorem C5_cex_foreign_owner_key_blocks :
    (processImportJob
        { jobs := [⟨99, 2, "completed", 1, [], none, 1, 1, 0⟩,
                   ⟨1, 1, "processing", 1,
                    [[("d", "2024-01-01"), ("a", "5"), ("s", "x")]],
                    some ⟨"d", "a", "s", none, none, none, none⟩, 0, 0, 0⟩],
          importRows := [⟨99, 1, "2024-01-01|5|x|", "processed", none, some 500⟩],
          transactions := [], notifications := [], nextTxId := 600 } 1).importRows
      = [⟨99, 1, "2024-01-01|5|x|", "processed", none, some 500⟩,
         ⟨1, 1, "2024-01-01|5|x|", "duplicate",
          some "Duplicate transaction detected", none⟩] ∧
    (processImportJob
        { jobs := [⟨99, 2, "completed", 1, [], none, 1, 1, 0⟩,
                   ⟨1, 1, "processing", 1,
                    [[("d", "2024-01-01"), ("a", "5"), ("s", "x")]],
                    some ⟨"d", "a", "s", none, none, none, none⟩, 0, 0, 0⟩],
          importRows := [⟨99, 1, "2024-01-01|5|x|", "processed", none, some 500⟩],
          transactions := [], notifications := [], nextTxId := 600 } 1).transactions
      = [] := by
  constructor <;> rfl

/-- C6 (amended, positive half).  The idempotency key is a deterministic
function of the four raw cells (md5 of their join with a pipe): whenever two
rows present byte-identical date, amount, description and
reference-or-empty cells, their keys agree. -/
theorem C6_key_deterministic (row1 row2 : RawRow) (m1 m2 : Mapping)
    (h1 : (rowGet row1 m1.date).getD "" = (rowGet row2 m2.date).getD "")
    (h2 : (rowGet row1 m1.amount).getD "" = (rowGet row2 m2.amount).getD "")
    (h3 : (rowGet row1 m1.description).getD "" = (rowGet row2 m2.description).getD "")
    (h4 : (rowGetOpt row1 m1.reference).getD "" = (rowGetOpt row2 m2.reference).getD "") :
    generateIdempotencyKey row1 m1 = generateIdempotencyKey row2 m2 := by
  unfold generateIdempotencyKey keyFields
  rw [h1, h2, h3, h4]

/-- Witness for C6: two rows under different column names but identical raw
cells get the same key. -/
theorem C6_key_deterministic_witness :
    generateIdempotencyKey [("d", "2024-01-01"), ("a", "5"), ("s", "x")]
        ⟨"d", "a", "s", none, none, none, none⟩
      = generateIdempotencyKey [("dt", "2024-01-01"), ("amt", "5"), ("ds", "x")]
        ⟨"dt", "amt", "ds", none, none, none, none⟩ :=
  C6_key_deterministic _ _ _ _ (by decide) (by decide) (by decide) (by decide)

/-- C6 counterexample: the joined fingerprint input is not injective in the
four fields — a pipe inside a cell shifts the separators.  The rows
(date `a|b`, amount `c`) and (date `a`, amount `b|c`) have different raw
date cells yet identical keys, refuting the only-if direction of the
claim. -/
theorem C6_cex_pipe_shift_collision :
    generateIdempotencyKey [("d", "a|b"), ("a", "c"), ("s", "x")]
        ⟨"d", "a", "s", none, none, none, none⟩
      = generateIdempotencyKey [("d", "a"), ("a", "b|c"), ("s", "x")]
        ⟨"d", "a", "s", none, none, none, none⟩ ∧
    rowGet [("d", "a|b"), ("a", "c"), ("s", "x")] "d"
      ≠ rowGet [("d", "a"), ("a", "b|c"), ("s", "x")] "d" := by
  constructor
  · rfl
  · decide

/-- Case analysis of one loop iteration: exactly one outcome row is
appended, with row number `idx + 1` and one of the three terminal statuses;
the success counter moves exactly for a processed outcome, the failure
counter exactly for a duplicate or failed one; and any transaction the
iteration inserts carries no account reference and belongs to the job
owner. -/
theorem processRow_cases (jobId userId : Nat) (m : Mapping) (st : PState)
    (idx : Nat) (row : RawRow) :
    ∃ (o : ImportRow) (ts : List Txn),
      (processRow jobId userId m st idx row).importRows = st.importRows ++ [o] ∧
      (processRow jobId userId m st idx row).transactions = st.transactions ++ ts ∧
      o.rowNumber = idx + 1 ∧
      (o.status = "duplicate" ∨ o.status = "failed" ∨ o.status = "processed") ∧
      (processRow jobId userId m st idx row).successCount
        = st.successCount + (if o.status == "processed" then 1 else 0) ∧
      (processRow jobId userId m st idx row).failureCount
        = st.failureCount + (if o.status == "duplicate" then 1 else 0)
          + (if o.status == "failed" then 1 else 0) ∧
      (∀ t ∈ ts, t.accountId = none ∧ t.userId = userId) := by
  have e1 : (("duplicate" : String) == "processed") = false := by decide
  have e2 : (("failed" : String) == "processed") = false := by decide
  have e3 : (("processed" : String) == "processed") = true := by decide
  have e4 : (("duplicate" : String) == "duplicate") = true := by decide
  have e5 : (("failed" : String) == "duplicate") = false := by decide
  have e6 : (("processed" : String) == "duplicate") = false := by decide
  have e7 : (("duplicate" : String) == "failed") = false := by decide
  have e8 : (("failed" : String) == "failed") = true := by decide
  have e9 : (("processed" : String) == "failed") = false := by decide
  by_cases hdup :
      st.importRows.any (fun r => r.idempotencyKey == generateIdempotencyKey row m) = true
  · refine ⟨{ importJobId := jobId, rowNumber := idx + 1,
              idempotencyKey := generateIdempotencyKey row m,
              status := "duplicate",
              errorMessage := some "Duplicate transaction detected",
              transactionId := none }, [], ?_, ?_, rfl, Or.inl rfl, ?_, ?_, ?_⟩
    · simp [processRow, hdup]
    · simp [processRow, hdup]
    · simp [processRow, hdup, e1]
    · simp [processRow, hdup, e4, e7]
    · simp
  · by_cases hinv : rowInvalid row m = true
    · refine ⟨{ importJobId := jobId, rowNumber := idx + 1,
                idempotencyKey := generateIdempotencyKey row m,
                status := "failed",
                errorMessage := some "Invalid data format",
                transactionId := none }, [], ?_, ?_, rfl, Or.inr (Or.inl rfl), ?_, ?_, ?_⟩
      · simp [processRow, hdup, hinv]
      · simp [processRow, hdup, hinv]
      · simp [processRow, hdup, hinv, e2]
      · simp [processRow, hdup, hinv, e5, e8]
      · simp
    · refine ⟨{ importJobId := jobId, rowNumber := idx + 1,
                idempotencyKey := generateIdempotencyKey row m,
                status := "processed", errorMessage := none,
                transactionId := some st.nextTxId },
              [{ id := st.nextTxId, userId := userId, accountId := none,
                 amount := (parsedAmount row m).getD 0, type := rowType row m }],
              ?_, ?_, rfl, Or.inr (Or.inr rfl), ?_, ?_, ?_⟩
      · simp [processRow, hdup, hinv]
      · simp [processRow, hdup, hinv]
      · simp [processRow, hdup, hinv, e3]
      · simp [processRow, hdup, hinv, e6, e9]
      · simp

/-- Structural description of a whole run of the loop: it visits every row,
appending exactly one outcome per visited row (row numbers ascending from
`i + 1`), each with a terminal status; the final counters are the initial
ones plus the number of processed outcomes, respectively plus the number of
duplicate and failed outcomes; and every inserted transaction is
account-less and owned by the job owner. -/
theorem processRowsAux_spec (jobId userId : Nat) (m : Mapping) :
    ∀ (rows : List RawRow) (st : PState) (i : Nat),
      ∃ (newRows : List ImportRow) (newTxs : List Txn),
        (processRowsAux jobId userId m st i rows).importRows
            = st.importRows ++ newRows ∧
        (processRowsAux jobId userId m st i rows).transactions
            = st.transactions ++ newTxs ∧
        newRows.length = rows.length ∧
        newRows.map (fun o => o.rowNumber) = List.range' (i + 1) rows.length 1 ∧
        (processRowsAux jobId userId m st i rows).successCount
            = st.successCount + newRows.countP (fun o => o.status == "processed") ∧
        (processRowsAux jobId userId m st i rows).failureCount
            = st.failureCount + newRows.countP (fun o => o.status == "duplicate")
              + newRows.countP (fun o => o.status == "failed") ∧
        (∀ o ∈ newRows,
          o.status = "duplicate" ∨ o.status = "failed" ∨ o.status = "processed") ∧
        (∀ t ∈ newTxs, t.accountId = none ∧ t.userId = userId) := by
  intro rows
  induction rows with
  | nil =>
    intro st i
    exact ⟨[], [], by simp [processRowsAux], by simp [processRowsAux], by simp,
      by simp [List.range'], by simp [processRowsAux], by simp [processRowsAux],
      by simp, by simp⟩
  | cons row rest ih =>
    intro st i
    obtain ⟨o, ts, s1, s2, s3, s4, s5, s6, s7⟩ :=
      processRow_cases jobId userId m st i row
    obtain ⟨nr, nt, h1, h2, h3, h4, h5, h6, h7, h8⟩ :=
      ih (processRow jobId userId m st i row) (i + 1)
    refine ⟨o :: nr, ts ++ nt, ?_, ?_, ?_, ?_, ?_, ?_, ?_, ?_⟩
    · show (processRowsAux jobId userId m (processRow jobId userId m st i row)
        (i + 1) rest).importRows = _
      rw [h1, s1]
      simp
    · show (processRowsAux jobId userId m (processRow jobId userId m st i row)
        (i + 1) rest).transactions = _
      rw [h2, s2]
      simp
    · simp [h3]
    · rw [List.map_cons, h4, s3, List.length_cons, List.range'_succ]
    · show (processRowsAux jobId userId m (processRow jobId userId m st i row)
        (i + 1) rest).successCount = _
      rw [h5, s5, List.countP_cons]
      omega
    · show (processRowsAux jobId userId m (processRow jobId userId m st i row)
        (i + 1) rest).failureCount = _
      rw [h6, s6, List.countP_cons, List.countP_cons]
      omega
    · intro o' ho'
      rcases List.mem_cons.mp ho' with h | h
      · subst h; exact s4
      · exact h7 o' h
    · intro t ht
      rcases List.mem_append.mp ht with h | h
      · exact s7 t h
      · exact h8 t h

/-- Every outcome row carries exactly one of the three terminal statuses, so
the three per-status counts partition the list. -/
theorem countP_terminal_split (l : List ImportRow)
    (h : ∀ o ∈ l, o.status = "duplicate" ∨ o.status = "failed" ∨ o.status = "processed") :
    l.countP (fun o => o.status == "processed")
      + l.countP (fun o => o.status == "duplicate")
      + l.countP (fun o => o.status == "failed") = l.length := by
  have e1 : (("duplicate" : String) == "processed") = false := by decide
  have e2 : (("failed" : String) == "processed") = false := by decide
  have e3 : (("processed" : String) == "processed") = true := by decide
  have e4 : (("duplicate" : String) == "duplicate") = true := by decide
  have e5 : (("failed" : String) == "duplicate") = false := by decide
  have e6 : (("processed" : String) == "duplicate") = false := by decide
  have e7 : (("duplicate" : String) == "failed") = false := by decide
  have e8 : (("failed" : String) == "failed") = true := by decide
  have e9 : (("processed" : String) == "failed") = false := by decide
  induction l with
  | nil => simp
  | cons o rest ih =>
    have ho := h o (List.mem_cons_self o rest)
    have ih2 := ih (fun o' ho' => h o' (List.mem_cons_of_mem o ho'))
    rw [List.countP_cons, List.countP_cons, List.countP_cons, List.length_cons]
    rcases ho with h1 | h1 | h1 <;> rw [h1] <;>
      simp only [e1, e2, e3, e4, e5, e6, e7, e8, e9, if_true, if_false,
        Bool.false_eq_true, Bool.true_eq_false, decide_eq_true_eq] <;>
      omega

/-- C10.  In a finished run the counters recorded on the job satisfy
`successful_rows = number of processed outcomes` and
`failed_rows = number of duplicate outcomes + number of failed outcomes`:
every duplicate bumps the failure counter (line 320), there is no third
counter, `successful_rows + failed_rows` equals the number of visited rows,
and the notifier payload repeats exactly these two counters, so duplicates
are reported to the notifier among the failures. -/
theorem C10_duplicates_counted_as_failures (st : ImportState) (jobId : Nat)
    (job : ImportJob) (m : Mapping)
    (hfind : st.jobs.find? (fun j => j.id == jobId) = some job)
    (hmap : job.mappingData = some m) :
    ∃ newRows : List ImportRow,
      (processImportJob st jobId).importRows = st.importRows ++ newRows ∧
      newRows.length = job.previewData.length ∧
      ∃ j' ∈ (processImportJob st jobId).jobs,
        j'.id = job.id ∧
        j'.status = "completed" ∧
        j'.successfulRows = newRows.countP (fun o => o.status == "processed") ∧
        j'.failedRows = newRows.countP (fun o => o.status == "duplicate")
          + newRows.countP (fun o => o.status == "failed") ∧
        j'.successfulRows + j'.failedRows = job.previewData.length ∧
        (processImportJob st jobId).notifications
          = st.notifications
            ++ [{ userId := job.userId, successCount := j'.successfulRows,
                  failureCount := j'.failedRows }] := by
  have hid : job.id = jobId := by
    have hp := List.find?_some hfind
    simpa using hp
  have hmem : job ∈ st.jobs := List.mem_of_find?_eq_some hfind
  obtain ⟨nr, nt, h1, h2, h3, h4, h5, h6, h7, h8⟩ :=
    processRowsAux_spec jobId job.userId m job.previewData
      { importRows := st.importRows, transactions := st.transactions,
        nextTxId := st.nextTxId, successCount := 0, failureCount := 0 } 0
  refine ⟨nr, ?_, h3, ?_⟩
  · simp only [processImportJob, hfind, hmap]
    exact h1
  · refine ⟨{ job with
              status := "completed",
              processedRows := job.previewData.length,
              successfulRows := (processRowsAux jobId job.userId m {
                importRows := st.importRows, transactions := st.transactions,
                nextTxId := st.nextTxId, successCount := 0,
                failureCount := 0 } 0 job.previewData).successCount,
              failedRows := (processRowsAux jobId job.userId m {
                importRows := st.importRows, transactions := st.transactions,
                nextTxId := st.nextTxId, successCount := 0,
                failureCount := 0 } 0 job.previewData).failureCount },
            ?_, rfl, rfl, ?_, ?_, ?_, ?_⟩
    · simp only [processImportJob, hfind, hmap]
      refine List.mem_map.mpr ⟨job, hmem, ?_⟩
      rw [if_pos hid, hmap]
    · dsimp only at h5 ⊢
      omega
    · dsimp only at h6 ⊢
      omega
    · dsimp only at h5 h6 ⊢
      have hsplit := countP_terminal_split nr h7
      omega
    · simp only [processImportJob, hfind, hmap]

/-- Witness for C10: a two-row job whose second row is an in-run duplicate
of the first; the recorded counters split 1 processed / 1 failed, with the
duplicate counted among the failures and the notifier repeating the two
counters. -/
theorem C10_duplicates_counted_as_failures_witness :
    ∃ newRows : List ImportRow,
      (processImportJob sampleStateTwice 1).importRows
          = sampleStateTwice.importRows ++ newRows ∧
      newRows.length = sampleJobTwice.previewData.length ∧
      ∃ j' ∈ (processImportJob sampleStateTwice 1).jobs,
        j'.id = sampleJobTwice.id ∧
        j'.status = "completed" ∧
        j'.successfulRows = newRows.countP (fun o => o.status == "processed") ∧
        j'.failedRows = newRows.countP (fun o => o.status == "duplicate")
          + newRows.countP (fun o => o.status == "failed") ∧
        j'.successfulRows + j'.failedRows = sampleJobTwice.previewData.length ∧
        (processImportJob sampleStateTwice 1).notifications
          = sampleStateTwice.notifications
            ++ [{ userId := sampleJobTwice.userId,
                  successCount := j'.successfulRows,
                  failureCount := j'.failedRows }] :=
  C10_duplicates_counted_as_failures sampleStateTwice 1 sampleJobTwice mapDAS
    (by rfl) (by rfl)

/-- C7 (amended).  A row whose amount cell strips to a NONEMPTY string that
parseFloat rejects is (when not a duplicate) recorded failed with no
transaction inserted; and whatever the rows contain, the processor visits
every preview row, records one outcome per row, and finishes the job in
status completed.  (The amendment: a row whose amount strips to the EMPTY
string is defaulted to the string zero by `|| '0'` and is processed with
amount 0 rather than failed — see the counterexample.) -/
theorem C7_unparseable_amount_row_fails
    : (∀ (jobId userId : Nat) (m : Mapping) (st : PState) (idx : Nat)
        (row : RawRow) (s : String),
        st.importRows.any
            (fun r => r.idempotencyKey == generateIdempotencyKey row m) = false →
        (rowGet row m.amount).map stripAmountChars = some s →
        s.isEmpty = false →
        jsParseFloat s = none →
        (processRow jobId userId m st idx row).importRows
            = st.importRows ++
              [{ importJobId := jobId, rowNumber := idx + 1,
                 idempotencyKey := generateIdempotencyKey row m,
                 status := "failed",
                 errorMessage := some "Invalid data format",
                 transactionId := none }] ∧
          (processRow jobId userId m st idx row).transactions
            = st.transactions) ∧
      (∀ (st : ImportState) (jobId : Nat) (job : ImportJob) (m : Mapping),
        st.jobs.find? (fun j => j.id == jobId) = some job →
        job.mappingData = some m →
        ∃ newRows : List ImportRow,
          (processImportJob st jobId).importRows = st.importRows ++ newRows ∧
          newRows.length = job.previewData.length ∧
          ∃ j' ∈ (processImportJob st jobId).jobs,
            j'.id = job.id ∧ j'.status = "completed") := by
  constructor
  · intro jobId userId m st idx row s hdup hs hne hnan
    have hinv : rowInvalid row m = true := by
      have hpa : parsedAmount row m = none := by
        rw [parsedAmount, amountInput, hs]
        simp only [hne, Bool.false_eq_true, if_false]
        exact hnan
      simp [rowInvalid, hpa]
    constructor
    · simp [processRow, hdup, hinv]
    · simp [processRow, hdup, hinv]
  · intro st jobId job m hfind hmap
    have hid : job.id = jobId := by
      have hp := List.find?_some hfind
      simpa using hp
    have hmem : job ∈ st.jobs := List.mem_of_find?_eq_some hfind
    obtain ⟨nr, nt, h1, h2, h3, h4, h5, h6, h7, h8⟩ :=
      processRowsAux_spec jobId job.userId m job.previewData
        { importRows := st.importRows, transactions := st.transactions,
          nextTxId := st.nextTxId, successCount := 0, failureCount := 0 } 0
    refine ⟨nr, ?_, h3, ?_⟩
    · simp only [processImportJob, hfind, hmap]
      exact h1
    · refine ⟨{ job with
                status := "completed",
                processedRows := job.previewData.length,
                successfulRows := (processRowsAux jobId job.userId m {
                  importRows := st.importRows, transactions := st.transactions,
                  nextTxId := st.nextTxId, successCount := 0,
                  failureCount := 0 } 0 job.previewData).successCount,
                failedRows := (processRowsAux jobId job.userId m {
                  importRows := st.importRows, transactions := st.transactions,
                  nextTxId := st.nextTxId, successCount := 0,
                  failureCount := 0 } 0 job.previewData).failureCount },
              ?_, rfl, rfl⟩
      simp only [processImportJob, hfind, hmap]
      refine List.mem_map.mpr ⟨job, hmem, ?_⟩
      rw [if_pos hid, hmap]

/-- Witness for C7: the row whose amount cell is a lone minus sign is
recorded failed without a transaction, and the one-row job around it still
completes. -/
theorem C7_unparseable_amount_row_fails_witness :
    ((processRow 1 1 mapDAS { importRows := [], transactions := [],
                              nextTxId := 9, successCount := 0, failureCount := 0 } 0 rowDash).importRows
        = [] ++
          [{ importJobId := 1, rowNumber := 0 + 1,
             idempotencyKey := generateIdempotencyKey rowDash mapDAS,
             status := "failed",
             errorMessage := some "Invalid data format",
             transactionId := none }] ∧
      (processRow 1 1 mapDAS { importRows := [], transactions := [],
                               nextTxId := 9, successCount := 0, failureCount := 0 } 0 rowDash).transactions
        = []) ∧
    (∃ newRows : List ImportRow,
      (processImportJob
          { jobs := [{ id := 1, userId := 1, status := "configured",
                       totalRows := 1, previewData := [rowDash],
                       mappingData := some mapDAS, processedRows := 0,
                       successfulRows := 0, failedRows := 0 }],
            importRows := [], transactions := [], notifications := [],
            nextTxId := 9 } 1).importRows = [] ++ newRows ∧
      newRows.length = [rowDash].length ∧
      ∃ j' ∈ (processImportJob
          { jobs := [{ id := 1, userId := 1, status := "configured",
                       totalRows := 1, previewData := [rowDash],
                       mappingData := some mapDAS, processedRows := 0,
                       successfulRows := 0, failedRows := 0 }],
            importRows := [], transactions := [], notifications := [],
            nextTxId := 9 } 1).jobs,
        j'.id = 1 ∧ j'.status = "completed") :=
  ⟨C7_unparseable_amount_row_fails.1 1 1 mapDAS
      { importRows := [], transactions := [], nextTxId := 9,
        successCount := 0, failureCount := 0 } 0 rowDash "-"
      (by rfl) (by rfl) (by rfl) (by rfl),
   C7_unparseable_amount_row_fails.2
      { jobs := [{ id := 1, userId := 1, status := "configured",
                   totalRows := 1, previewData := [rowDash],
                   mappingData := some mapDAS, processedRows := 0,
                   successfulRows := 0, failedRows := 0 }],
        importRows := [], transactions := [], notifications := [],
        nextTxId := 9 } 1
      { id := 1, userId := 1, status := "configured", totalRows := 1,
        previewData := [rowDash], mappingData := some mapDAS,
        processedRows := 0, successfulRows := 0, failedRows := 0 }
      mapDAS (by rfl) (by rfl)⟩

/-- C7 counterexample: the claim says a row whose amount, after stripping,
does not parse as a number is recorded failed.  The amount cell `abc`
strips to the empty string — which parseFloat rejects as NaN — yet the code
replaces the empty strip result by the string zero before parsing, so the
row is recorded processed and a transaction with amount 0 is inserted. -/
theorem C7_cex_empty_strip_is_processed :
    stripAmountChars "abc" = "" ∧
    jsParseFloat "" = none ∧
    (processRow 1 1 mapDAS { importRows := [], transactions := [],
                             nextTxId := 70, successCount := 0, failureCount := 0 } 0 rowAbc).importRows
      = [{ importJobId := 1, rowNumber := 1,
           idempotencyKey := generateIdempotencyKey rowAbc mapDAS,
           status := "processed", errorMessage := none,
           transactionId := some 70 }] ∧
    (processRow 1 1 mapDAS { importRows := [], transactions := [],
                             nextTxId := 70, successCount := 0, failureCount := 0 } 0 rowAbc).transactions
      ≠ [] := by
  refine ⟨by rfl, by rfl, by rfl, ?_⟩
  intro h
  exact absurd (congrArg List.length h) (by decide)

/-- C8 (amended).  The import processor does not go through the Transaction
Mutation Service: a non-duplicate row that merely passes the
NaN-amount/empty-description/invalid-date check gets a transaction inserted
directly through the ORM, carrying the parsed amount verbatim (which may be
zero or negative) and the raw mapped type cell (default expense, otherwise
unvalidated), with no account reference — so no `amount > 0` and no
direction-enum validation guards the insert. -/
theorem C8_import_insert_bypasses_validation (jobId userId : Nat) (m : Mapping)
    (st : PState) (idx : Nat) (row : RawRow)
    (hdup : st.importRows.any
        (fun r => r.idempotencyKey == generateIdempotencyKey row m) = false)
    (hinv : rowInvalid row m = false) :
    (processRow jobId userId m st idx row).transactions
      = st.transactions ++
        [{ id := st.nextTxId, userId := userId, accountId := none,
           amount := (parsedAmount row m).getD 0, type := rowType row m }] := by
  simp [processRow, hdup, hinv]

/-- Witness for C8: the row with amount cell `-5` and type cell transfer
passes the check and is inserted as-is. -/
theorem C8_import_insert_bypasses_validation_witness :
    (processRow 1 1 mapDAST { importRows := [], transactions := [],
                              nextTxId := 100, successCount := 0, failureCount := 0 } 0 rowNeg5).transactions
      = [] ++
        [{ id := 100, userId := 1, accountId := none,
           amount := (parsedAmount rowNeg5 mapDAST).getD 0,
           type := rowType rowNeg5 mapDAST }] :=
  C8_import_insert_bypasses_validation 1 1 mapDAST
    { importRows := [], transactions := [],
      nextTxId := 100, successCount := 0, failureCount := 0 } 0 rowNeg5
    (by rfl) (by rfl)

/-- The amount cell `-5` parses to the negative rational -5. -/
theorem parsedAmount_rowNeg5 : parsedAmount rowNeg5 mapDAST = some (-5) := by
  have h : amountInput rowNeg5 mapDAST = "-5" := by decide
  rw [parsedAmount, h]
  have h1 : "-5".toList = ['-', '5'] := by decide
  have h2 : List.takeWhile Char.isDigit ['5'] = ['5'] := by decide
  have h3 : List.dropWhile Char.isDigit ['5'] = [] := by decide
  have h4 : digitsVal ['5'] = 5 := by decide
  have h5 : digitsVal ([] : List Char) = 0 := by decide
  rw [jsParseFloat, h1]
  simp [jsParseUnsigned, h2, h3, h4, h5]

/-- C8 counterexample: the row with raw amount `-5` and raw type transfer
produces a committed transaction whose amount is the negative rational -5
and whose direction is the string transfer — violating both halves of the
create contract the claim asserts (`amount > 0`, direction in the
income/expense enum). -/
theorem C8_cex_negative_transfer_inserted :
    (processRow 1 1 mapDAST { importRows := [], transactions := [],
                              nextTxId := 100, successCount := 0, failureCount := 0 } 0 rowNeg5).transactions
      = [{ id := 100, userId := 1, accountId := none,
           amount := (parsedAmount rowNeg5 mapDAST).getD 0,
           type := "transfer" }] ∧
    (parsedAmount rowNeg5 mapDAST).getD 0 = -5 ∧
    ¬ (0 < ((-5 : ℚ))) ∧
    ("transfer" : String) ≠ "income" ∧
    ("transfer" : String) ≠ "expense" := by
  refine ⟨by rfl, ?_, by norm_num, by decide, by decide⟩
  rw [parsedAmount_rowNeg5]
  rfl

/-- C9.  An upload of six valid rows records `total_rows = 6` but stores
only the first five rows as `preview_data`; the background processor then
iterates over that stored preview, so the job reaches status completed with
outcome rows numbered 1 through 5 only — row 6 of the declared six never
receives an Import Row Outcome, contradicting the no-silent-failure claim
(the spec itself flags the preview-only processing as an unintended gap). -/
theorem C9_cex_row_six_has_no_outcome :
    uploadCSV [] 1 1 rows6
      = .ok [{ id := 1, userId := 1, status := "pending", totalRows := 6,
               previewData := rows6.take 5, mappingData := none,
               processedRows := 0, successfulRows := 0, failedRows := 0 }] ∧
    rows6.length = 6 ∧
    (processImportJob
        { jobs := [{ id := 1, userId := 1, status := "configured", totalRows := 6,
                     previewData := rows6.take 5, mappingData := some mapDAS,
                     processedRows := 0, successfulRows := 0, failedRows := 0 }],
          importRows := [], transactions := [], notifications := [],
          nextTxId := 10 } 1).jobs
      = [{ id := 1, userId := 1, status := "completed", totalRows := 6,
           previewData := rows6.take 5, mappingData := some mapDAS,
           processedRows := 5, successfulRows := 5, failedRows := 0 }] ∧
    ((processImportJob
        { jobs := [{ id := 1, userId := 1, status := "configured", totalRows := 6,
                     previewData := rows6.take 5, mappingData := some mapDAS,
                     processedRows := 0, successfulRows := 0, failedRows := 0 }],
          importRows := [], transactions := [], notifications := [],
          nextTxId := 10 } 1).importRows.map (fun o => o.rowNumber))
      = [1, 2, 3, 4, 5] ∧
    ¬ (6 ∈ ((processImportJob
        { jobs := [{ id := 1, userId := 1, status := "configured", totalRows := 6,
                     previewData := rows6.take 5, mappingData := some mapDAS,
                     processedRows := 0, successfulRows := 0, failedRows := 0 }],
          importRows := [], transactions := [], notifications := [],
          nextTxId := 10 } 1).importRows.map (fun o => o.rowNumber))) := by
  refine ⟨by rfl, by rfl, by rfl, by rfl, ?_⟩
  decide

theorem sumFor_cons (t : Txn) (ts : List Txn) (aid : Nat) :
    sumFor (t :: ts) aid
      = (if t.accountId = some aid then signedAmount t else 0) + sumFor ts aid := by
  unfold sumFor
  by_cases h : t.accountId = some aid <;>
    simp [List.filter_cons, h]

theorem sumFor_append_one (ts : List Txn) (t : Txn) (aid : Nat) :
    sumFor (ts ++ [t]) aid
      = sumFor ts aid + (if t.accountId = some aid then signedAmount t else 0) := by
  unfold sumFor
  rw [List.filter_append]
  by_cases h : t.accountId = some aid <;>
    simp [List.filter_cons, h]

theorem sumFor_replace (aid txId : Nat) (old newTx : Txn) :
    ∀ (ts : List Txn), (ts.map (fun t => t.id)).Nodup → old ∈ ts →
    old.id = txId → newTx.id = txId →
    sumFor (ts.map (fun t => if t.id = txId then newTx else t)) aid
      = sumFor ts aid
        - (if old.accountId = some aid then signedAmount old else 0)
        + (if newTx.accountId = some aid then signedAmount newTx else 0) := by
  intro ts
  induction ts with
  | nil => intro _ hmem; cases hmem
  | cons t rest ih =>
    intro hnd hmem hold hnew
    have hndr : (rest.map (fun t => t.id)).Nodup := (List.nodup_cons.mp hnd).2
    have hhead : t.id ∉ rest.map (fun t => t.id) := (List.nodup_cons.mp hnd).1
    rcases List.mem_cons.mp hmem with h | h
    · subst h
      have hrest : ∀ u ∈ rest, ¬ u.id = txId := by
        intro u hu he
        exact hhead (List.mem_map.mpr ⟨u, hu, by rw [he, hold]⟩)
      rw [List.map_cons, if_pos hold, List.map_congr_left
        (fun u hu => if_neg (hrest u hu)), sumFor_cons, sumFor_cons]
      simp only [List.map_id']
      ring
    · have htid : ¬ t.id = txId := by
        intro he
        exact hhead (List.mem_map.mpr ⟨old, h, by rw [hold, he]⟩)
      rw [List.map_cons, if_neg htid, sumFor_cons, sumFor_cons,
        ih hndr h hold hnew]
      ring

theorem sumFor_erase (aid txId : Nat) (old : Txn) :
    ∀ (ts : List Txn), (ts.map (fun t => t.id)).Nodup → old ∈ ts →
    old.id = txId →
    sumFor (ts.filter (fun u => u.id != txId)) aid
      = sumFor ts aid
        - (if old.accountId = some aid then signedAmount old else 0) := by
  intro ts
  induction ts with
  | nil => intro _ hmem; cases hmem
  | cons t rest ih =>
    intro hnd hmem hold
    have hndr : (rest.map (fun t => t.id)).Nodup := (List.nodup_cons.mp hnd).2
    have hhead : t.id ∉ rest.map (fun t => t.id) := (List.nodup_cons.mp hnd).1
    rcases List.mem_cons.mp hmem with h | h
    · subst h
      have hrest : ∀ u ∈ rest, (u.id != txId) = true := by
        intro u hu
        have : ¬ u.id = txId := by
          intro he
          exact hhead (List.mem_map.mpr ⟨u, hu, by rw [he, hold]⟩)
        simpa using this
      rw [List.filter_cons_of_neg (by simpa using hold),
        List.filter_eq_self.mpr hrest, sumFor_cons]
      ring
    · have htid : ¬ t.id = txId := by
        intro he
        exact hhead (List.mem_map.mpr ⟨old, h, by rw [hold, he]⟩)
      rw [List.filter_cons_of_pos (by simpa using htid), sumFor_cons, sumFor_cons,
        ih hndr h hold]
      ring

theorem incrementBalance_ids (accs accs' : List Account) (aid : Nat) (d : JSNum)
    (h : incrementBalance accs aid d = some accs') :
    accs'.map (fun a => a.id) = accs.map (fun a => a.id) := by
  rw [incrementBalance_map accs accs' aid d h, List.map_map]
  apply List.map_congr_left
  intro a _
  by_cases hid : a.id = aid <;> simp [hid]

theorem incrementBalance_mem (accs accs' : List Account) (aid : Nat) (d : JSNum)
    (h : incrementBalance accs aid d = some accs') :
    ∀ a' ∈ accs', ∃ a ∈ accs,
      a' = if a.id = aid then { a with balance := jsAdd a.balance d } else a := by
  intro a' ha'
  rw [incrementBalance_map accs accs' aid d h] at ha'
  rcases List.mem_map.mp ha' with ⟨a, ha, he⟩
  exact ⟨a, ha, he.symm⟩

theorem incrementBalance_none_absent (accs : List Account) (aid : Nat) (d : JSNum)
    (h : incrementBalance accs aid d = none) :
    accs.any (fun a => a.id == aid) = false := by
  by_cases hc : accs.any (fun a => a.id == aid) = true
  · rw [incrementBalance_isSome accs aid d hc] at h
    cases h
  · simpa using hc

theorem append_fresh_nodup (ts : List Txn) (t : Txn)
    (hnd : (ts.map (fun u => u.id)).Nodup)
    (hfresh : t.id ∉ ts.map (fun u => u.id)) :
    ((ts ++ [t]).map (fun u => u.id)).Nodup := by
  rw [List.map_append, List.nodup_append]
  refine ⟨hnd, by simp, ?_⟩
  intro x hx
  simp only [List.map_cons, List.map_nil, List.mem_cons, List.not_mem_nil,
    or_false]
  intro he
  rw [he] at hx
  exact hfresh hx

theorem createTransaction_preserves (l : Ledger) (u newId : Nat) (r : CreateReq)
    (l' : Ledger) (hwf : WFLedger l) (hinv : BalanceInv l)
    (hfresh : newId ∉ l.transactions.map (fun t => t.id))
    (hres : createTransaction l u newId r = some l') :
    BalanceInv l' ∧ WFLedger l' := by
  unfold createTransaction at hres
  cases hacc : r.accountId with
  | none =>
    rw [hacc] at hres
    dsimp only at hres
    injection hres with hres
    subst hres
    constructor
    · intro a ha
      dsimp only at ha ⊢
      rw [sumFor_append_one, hinv a ha]
      have hno : ¬ ((none : Option Nat) = some a.id) :=
        fun hc => Option.noConfusion hc
      rw [if_neg hno]
      simp
    · exact ⟨hwf.1, append_fresh_nodup l.transactions _ hwf.2 hfresh⟩
  | some aid =>
    rw [hacc] at hres
    dsimp only at hres
    cases hinc : incrementBalance l.accounts aid (some (signedOf r.type r.amount)) with
    | none =>
      rw [hinc] at hres
      cases hres
    | some accs' =>
      rw [hinc] at hres
      injection hres with hres
      subst hres
      constructor
      · intro a' ha'
        dsimp only at ha' ⊢
        obtain ⟨a, ha, he⟩ := incrementBalance_mem _ _ _ _ hinc a' ha'
        have hb := hinv a ha
        rw [sumFor_append_one]
        by_cases hid : a.id = aid
        · rw [if_pos hid] at he
          rw [he]
          dsimp only
          have hcond : (some aid : Option Nat) = some a.id := by rw [hid]
          rw [hb, if_pos hcond]
          rfl
        · rw [if_neg hid] at he
          rw [he]
          have hcond : ¬ ((some aid : Option Nat) = some a.id) := by
            intro hc
            injection hc with hc
            exact hid hc.symm
          rw [hb, if_neg hcond]
          simp
      · refine ⟨?_, append_fresh_nodup l.transactions _ hwf.2 hfresh⟩
        dsimp only
        rw [incrementBalance_ids _ _ _ _ hinc]
        exact hwf.1

theorem deleteTransaction_preserves (l : Ledger) (u txId : Nat) (l' : Ledger)
    (hwf : WFLedger l) (hinv : BalanceInv l)
    (hres : deleteTransaction l u txId = some l') :
    BalanceInv l' ∧ WFLedger l' := by
  unfold deleteTransaction at hres
  cases hfind : l.transactions.find? (fun t => t.id == txId && t.userId == u) with
  | none =>
    rw [hfind] at hres
    cases hres
  | some old =>
    rw [hfind] at hres
    dsimp only at hres
    have hmem := List.mem_of_find?_eq_some hfind
    have hpred := List.find?_some hfind
    have hold : old.id = txId := by
      simp only [Bool.and_eq_true, beq_iff_eq] at hpred
      exact hpred.1
    have hsub := List.filter_sublist (p := fun u => u.id != txId) l.transactions
    have hfiltnd : ((l.transactions.filter (fun u => u.id != txId)).map
        (fun t => t.id)).Nodup :=
      (hsub.map (fun t => t.id)).nodup hwf.2
    cases haid : old.accountId with
    | none =>
      rw [haid] at hres
      dsimp only at hres
      injection hres with hres
      subst hres
      refine ⟨?_, hwf.1, hfiltnd⟩
      intro a ha
      rw [hinv a ha]
      dsimp only
      rw [sumFor_erase a.id txId old l.transactions hwf.2 hmem hold, haid]
      simp
    | some A =>
      rw [haid] at hres
      dsimp only at hres
      cases hinc : incrementBalance l.accounts A (some (-signedAmount old)) with
      | none =>
        rw [hinc] at hres
        cases hres
      | some accs' =>
        rw [hinc] at hres
        injection hres with hres
        subst hres
        refine ⟨?_, ?_, hfiltnd⟩
        · intro a' ha'
          dsimp only at ha' ⊢
          obtain ⟨a, ha, he⟩ := incrementBalance_mem _ _ _ _ hinc a' ha'
          have hb := hinv a ha
          rw [sumFor_erase a'.id txId old l.transactions hwf.2 hmem hold, haid]
          by_cases hid : a.id = A
          · rw [if_pos hid] at he
            rw [he]
            dsimp only
            have hcond : (some A : Option Nat) = some a.id := by rw [hid]
            rw [hb, if_pos hcond, jsAdd]
            have : sumFor l.transactions a.id + -signedAmount old
                = sumFor l.transactions a.id - signedAmount old := by ring
            rw [this]
          · rw [if_neg hid] at he
            rw [he]
            have hcond : ¬ ((some A : Option Nat) = some a.id) := by
              intro hc
              injection hc with hc
              exact hid hc.symm
            rw [hb, if_neg hcond]
            simp
        · dsimp only
          rw [incrementBalance_ids _ _ _ _ hinc]
          exact hwf.1

theorem replace_ids (ts : List Txn) (txId : Nat) (newTx : Txn)
    (h : newTx.id = txId) :
    (ts.map (fun t => if t.id = txId then newTx else t)).map (fun t => t.id)
      = ts.map (fun t => t.id) := by
  rw [List.map_map]
  apply List.map_congr_left
  intro t _
  by_cases hid : t.id = txId <;> simp [hid, h]

theorem updateTransaction_preserves (l : Ledger) (u txId : Nat) (r : UpdateReq)
    (l' : Ledger) (hwf : WFLedger l) (hinv : BalanceInv l)
    (hfull : fullUpdate r = true)
    (hres : updateTransaction l u txId r = some l') :
    BalanceInv l' ∧ WFLedger l' := by
  unfold updateTransaction at hres
  cases hfind : l.transactions.find? (fun t => t.id == txId && t.userId == u) with
  | none =>
    rw [hfind] at hres
    cases hres
  | some old =>
    rw [hfind] at hres
    dsimp only at hres
    have hmem := List.mem_of_find?_eq_some hfind
    have hpred := List.find?_some hfind
    have hold : old.id = txId := by
      simp only [Bool.and_eq_true, beq_iff_eq] at hpred
      exact hpred.1
    cases hacc : r.accountId with
    | none =>
      simp [fullUpdate, hacc] at hfull
    | some newAcc =>
      rw [hacc] at hres
      cases haid : old.accountId with
      | none =>
        rw [haid] at hres
        dsimp only at hres
        cases newAcc with
        | none =>
          dsimp only at hres
          injection hres with hres
          subst hres
          simp only [Option.getD_some]
          have hnewid : ({ old with accountId := none,
                                    amount := r.amount.getD old.amount,
                                    type := r.type.getD old.type } : Txn).id = txId := hold
          constructor
          · intro a ha
            dsimp only at ha ⊢
            rw [hinv a ha, sumFor_replace a.id txId old _ l.transactions hwf.2
              hmem hold hnewid, haid]
            simp
          · exact ⟨hwf.1, by rw [replace_ids _ _ _ hnewid]; exact hwf.2⟩
        | some B =>
          simp only [fullUpdate, hacc, Bool.and_eq_true] at hfull
          obtain ⟨mv, hmv⟩ := Option.isSome_iff_exists.mp hfull.1
          obtain ⟨tyv, htyv⟩ := Option.isSome_iff_exists.mp hfull.2
          rw [hmv, htyv] at hres
          dsimp only at hres
          cases hinc2 : incrementBalance l.accounts B
              (some (if (some tyv = some "income") then mv else -mv)) with
          | none =>
            rw [hinc2] at hres
            cases hres
          | some accs2 =>
            rw [hinc2] at hres
            injection hres with hres
            subst hres
            simp only [Option.getD_some]
            have hnewid : ({ old with accountId := some B,
                                      amount := mv, type := tyv } : Txn).id = txId := hold
            have hdelta : (if (some tyv = some ("income" : String)) then mv else -mv)
                = signedAmount { old with accountId := some B,
                                          amount := mv, type := tyv } := by
              by_cases hty : tyv = "income" <;> simp [signedAmount, hty]
            constructor
            · intro a'' ha''
              dsimp only at ha'' ⊢
              obtain ⟨a, ha, hea⟩ := incrementBalance_mem _ _ _ _ hinc2 a'' ha''
              have hbal := hinv a ha
              rw [sumFor_replace a''.id txId old _ l.transactions hwf.2
                hmem hold hnewid, haid]
              by_cases hidB : a.id = B
              · rw [if_pos hidB] at hea
                rw [hea]
                dsimp only
                have hc2 : (some B : Option Nat) = some a.id := by rw [hidB]
                rw [hbal, if_pos hc2, hdelta, jsAdd]
                have hno : ¬ ((none : Option Nat) = some a.id) :=
                  fun hc => Option.noConfusion hc
                rw [if_neg hno]
                simp only [Option.some.injEq]
                ring
              · rw [if_neg hidB] at hea
                rw [hea]
                have hc2 : ¬ ((some B : Option Nat) = some a.id) := by
                  intro hc
                  injection hc with hc
                  exact hidB hc.symm
                rw [hbal, if_neg hc2]
                simp
            · refine ⟨?_, by rw [replace_ids _ _ _ hnewid]; exact hwf.2⟩
              dsimp only
              rw [incrementBalance_ids _ _ _ _ hinc2]
              exact hwf.1
      | some A =>
        rw [haid] at hres
        dsimp only at hres
        cases hinc1 : incrementBalance l.accounts A (some (-signedAmount old)) with
        | none =>
          rw [hinc1] at hres
          cases hres
        | some accs1 =>
          rw [hinc1] at hres
          dsimp only at hres
          cases newAcc with
          | none =>
            dsimp only at hres
            injection hres with hres
            subst hres
            simp only [Option.getD_some]
            have hnewid : ({ old with accountId := none,
                                      amount := r.amount.getD old.amount,
                                      type := r.type.getD old.type } : Txn).id = txId := hold
            constructor
            · intro a' ha'
              dsimp only at ha' ⊢
              obtain ⟨a, ha, hea⟩ := incrementBalance_mem _ _ _ _ hinc1 a' ha'
              have hbal := hinv a ha
              rw [sumFor_replace a'.id txId old _ l.transactions hwf.2
                hmem hold hnewid, haid]
              by_cases hidA : a.id = A
              · rw [if_pos hidA] at hea
                rw [hea]
                dsimp only
                have hc1 : (some A : Option Nat) = some a.id := by rw [hidA]
                rw [hbal, if_pos hc1, jsAdd]
                have hno : ¬ ((none : Option Nat) = some a.id) :=
                  fun hc => Option.noConfusion hc
                rw [if_neg hno]
                simp only [Option.some.injEq]
                ring
              · rw [if_neg hidA] at hea
                rw [hea]
                have hc1 : ¬ ((some A : Option Nat) = some a.id) := by
                  intro hc
                  injection hc with hc
                  exact hidA hc.symm
                rw [hbal, if_neg hc1]
                simp
            · refine ⟨?_, by rw [replace_ids _ _ _ hnewid]; exact hwf.2⟩
              dsimp only
              rw [incrementBalance_ids _ _ _ _ hinc1]
              exact hwf.1
          | some B =>
            simp only [fullUpdate, hacc, Bool.and_eq_true] at hfull
            obtain ⟨mv, hmv⟩ := Option.isSome_iff_exists.mp hfull.1
            obtain ⟨tyv, htyv⟩ := Option.isSome_iff_exists.mp hfull.2
            rw [hmv, htyv] at hres
            dsimp only at hres
            cases hinc2 : incrementBalance accs1 B
                (some (if (some tyv = some "income") then mv else -mv)) with
            | none =>
              rw [hinc2] at hres
              cases hres
            | some accs2 =>
              rw [hinc2] at hres
              injection hres with hres
              subst hres
              simp only [Option.getD_some]
              have hnewid : ({ old with accountId := some B,
                                        amount := mv, type := tyv } : Txn).id = txId := hold
              have hdelta : (if (some tyv = some ("income" : String)) then mv else -mv)
                  = signedAmount { old with accountId := some B,
                                            amount := mv, type := tyv } := by
                by_cases hty : tyv = "income" <;> simp [signedAmount, hty]
              constructor
              · intro a'' ha''
                dsimp only at ha'' ⊢
                obtain ⟨b, hb1, heb⟩ := incrementBalance_mem _ _ _ _ hinc2 a'' ha''
                obtain ⟨a, ha, hea⟩ := incrementBalance_mem _ _ _ _ hinc1 b hb1
                have hbal := hinv a ha
                rw [sumFor_replace a''.id txId old _ l.transactions hwf.2
                  hmem hold hnewid, haid]
                by_cases hidB : b.id = B
                · rw [if_pos hidB] at heb
                  by_cases hidA : a.id = A
                  · rw [if_pos hidA] at hea
                    rw [heb, hea]
                    dsimp only
                    rw [hea] at hidB
                    dsimp only at hidB
                    have hcA : (some A : Option Nat) = some a.id := by rw [hidA]
                    have hcB : (some B : Option Nat) = some a.id := by rw [hidB]
                    rw [hbal, if_pos hcA, if_pos hcB, hdelta, jsAdd, jsAdd]
                    simp only [Option.some.injEq]
                    ring
                  · rw [if_neg hidA] at hea
                    rw [heb, hea]
                    dsimp only
                    rw [hea] at hidB
                    have hcA : ¬ ((some A : Option Nat) = some a.id) := by
                      intro hc
                      injection hc with hc
                      exact hidA hc.symm
                    have hcB : (some B : Option Nat) = some a.id := by rw [hidB]
                    rw [hbal, if_neg hcA, if_pos hcB, hdelta, jsAdd]
                    simp only [Option.some.injEq]
                    ring
                · rw [if_neg hidB] at heb
                  by_cases hidA : a.id = A
                  · rw [if_pos hidA] at hea
                    rw [heb, hea]
                    dsimp only
                    rw [hea] at hidB
                    dsimp only at hidB
                    have hcA : (some A : Option Nat) = some a.id := by rw [hidA]
                    have hcB : ¬ ((some B : Option Nat) = some a.id) := by
                      intro hc
                      injection hc with hc
                      exact hidB hc.symm
                    rw [hbal, if_pos hcA, if_neg hcB, jsAdd]
                    simp only [Option.some.injEq]
                    ring
                  · rw [if_neg hidA] at hea
                    rw [heb, hea]
                    rw [hea] at hidB
                    have hcA : ¬ ((some A : Option Nat) = some a.id) := by
                      intro hc
                      injection hc with hc
                      exact hidA hc.symm
                    have hcB : ¬ ((some B : Option Nat) = some a.id) := by
                      intro hc
                      injection hc with hc
                      exact hidB hc.symm
                    rw [hbal, if_neg hcA, if_neg hcB]
                    simp
              · refine ⟨?_, by rw [replace_ids _ _ _ hnewid]; exact hwf.2⟩
                dsimp only
                rw [incrementBalance_ids _ _ _ _ hinc2,
                  incrementBalance_ids _ _ _ _ hinc1]
                exact hwf.1

/-- The balance invariant and store well-formedness survive any sequence of
committed mutations in which every update request is full (carries
account_id, and amount plus type whenever account_id is non-null).  Together
with `C1_invariant_fails_on_partial_update` this pins the defect of the
update handler to the partial-update path. -/
theorem ledger_invariant_preserved (ops : List LedgerOp) :
    ∀ (l : Ledger), WFLedger l → BalanceInv l → SafeTrace l ops →
    BalanceInv (applyOps l ops) ∧ WFLedger (applyOps l ops) := by
  induction ops with
  | nil =>
    intro l hwf hinv _
    exact ⟨hinv, hwf⟩
  | cons op rest ih =>
    intro l hwf hinv hsafe
    obtain ⟨hop, htrace⟩ := hsafe
    have hstep : BalanceInv (applyOp l op) ∧ WFLedger (applyOp l op) := by
      cases op with
      | create u newId r =>
        obtain ⟨hv, hfresh⟩ := hop
        show BalanceInv ((createTransaction l u newId r).getD l) ∧
          WFLedger ((createTransaction l u newId r).getD l)
        cases hres : createTransaction l u newId r with
        | none => exact ⟨hinv, hwf⟩
        | some l2 =>
          exact createTransaction_preserves l u newId r l2 hwf hinv hfresh hres
      | update u t r =>
        obtain ⟨hv, hfull⟩ := hop
        show BalanceInv ((updateTransaction l u t r).getD l) ∧
          WFLedger ((updateTransaction l u t r).getD l)
        cases hres : updateTransaction l u t r with
        | none => exact ⟨hinv, hwf⟩
        | some l2 =>
          exact updateTransaction_preserves l u t r l2 hwf hinv hfull hres
      | delete u t =>
        show BalanceInv ((deleteTransaction l u t).getD l) ∧
          WFLedger ((deleteTransaction l u t).getD l)
        cases hres : deleteTransaction l u t with
        | none => exact ⟨hinv, hwf⟩
        | some l2 =>
          exact deleteTransaction_preserves l u t l2 hwf hinv hres
    exact ih (applyOp l op) hstep.2 hstep.1 htrace
